import Mathlib

/-!
Shallow embedding of the autolemetry-go event-delivery subsystem:
the generic circuit breaker (`circuitbreaker` package), the token-bucket
rate limiter (`ratelimit` package), and the asynchronous delivery queue
with per-destination health tracking (`subscribers` package).

Time is modelled as a natural number of milliseconds (the Go code uses
`time.Time` / `time.Duration`; every operation that reads the wall clock
takes the current instant `now` as an explicit argument).  `float64`
token arithmetic is modelled over `ℚ`.
-/

namespace Autolemetry

/-! ### Circuit breaker (`circuitbreaker` package) -/

/-- Go `State` from the circuitbreaker package: Closed / Open / HalfOpen. -/
inductive CBState where
  | StateClosed
  | StateOpen
  | StateHalfOpen
deriving DecidableEq, Repr

/-- The `CircuitBreaker` struct.  The mutex is elided (operations are modelled
as functions on the whole record); `time.Time` fields are `Nat` instants. -/
structure CircuitBreaker where
  state : CBState
  failureCount : Nat
  successCount : Nat
  failureThreshold : Nat
  successThreshold : Nat
  timeout : Nat
  lastStateChange : Nat
deriving DecidableEq, Repr

/-- Constructor `NewCircuitBreaker(failureThreshold, successThreshold, timeout)`,
constructed at instant `now` (`lastStateChange: time.Now()`). -/
def NewCircuitBreaker (failureThreshold successThreshold timeout now : Nat) :
    CircuitBreaker :=
  { state := .StateClosed
    failureCount := 0
    successCount := 0
    failureThreshold := failureThreshold
    successThreshold := successThreshold
    timeout := timeout
    lastStateChange := now }

/-- Method `cb.setState(state)`: sets the state and records the transition time. -/
def CircuitBreaker.setState (cb : CircuitBreaker) (s : CBState) (now : Nat) :
    CircuitBreaker :=
  { cb with state := s, lastStateChange := now }

/-- Method `cb.Allow()` at instant `now`.  Returns the updated breaker and the
boolean result.  In `StateOpen`, `time.Since(lastChange) > timeout`
becomes `now - lastStateChange > timeout` (truncated subtraction; the
wall clock never runs backwards). -/
def CircuitBreaker.Allow (cb : CircuitBreaker) (now : Nat) :
    CircuitBreaker × Bool :=
  match cb.state with
  | .StateClosed => (cb, true)
  | .StateOpen =>
      if now - cb.lastStateChange > cb.timeout then
        (cb.setState .StateHalfOpen now, true)
      else
        (cb, false)
  | .StateHalfOpen => (cb, true)

/-- Method `cb.RecordSuccess()` at instant `now`. -/
def CircuitBreaker.RecordSuccess (cb : CircuitBreaker) (now : Nat) :
    CircuitBreaker :=
  if cb.state = .StateHalfOpen then
    let cb := { cb with successCount := cb.successCount + 1 }
    if cb.successCount ≥ cb.successThreshold then
      { cb.setState .StateClosed now with successCount := 0, failureCount := 0 }
    else
      cb
  else
    { cb with failureCount := 0 }

/-- Method `cb.RecordFailure()` at instant `now`. -/
def CircuitBreaker.RecordFailure (cb : CircuitBreaker) (now : Nat) :
    CircuitBreaker :=
  let cb := { cb with failureCount := cb.failureCount + 1, successCount := 0 }
  if cb.failureCount ≥ cb.failureThreshold then
    cb.setState .StateOpen now
  else
    cb

/-! ### Token bucket (`ratelimit` package) -/

/-- The `TokenBucket` struct.  `float64` fields become `ℚ`; `lastUpdate` is a
rational instant in seconds. -/
structure TokenBucket where
  rate : ℚ
  burst : Nat
  tokens : ℚ
  lastUpdate : ℚ
deriving DecidableEq, Repr

/-- Constructor `NewTokenBucket(rate, burst)` at instant `now`. -/
def NewTokenBucket (rate : ℚ) (burst : Nat) (now : ℚ) : TokenBucket :=
  { rate := rate, burst := burst, tokens := (burst : ℚ), lastUpdate := now }

/-- Method `tb.Allow()` at instant `now`: lazy refill clamped to the burst
capacity, then consume one token when at least one is available. -/
def TokenBucket.Allow (tb : TokenBucket) (now : ℚ) : TokenBucket × Bool :=
  let elapsed := now - tb.lastUpdate
  let refilled := min ((tb.burst : ℚ)) (tb.tokens + elapsed * tb.rate)
  if refilled ≥ 1 then
    ({ tb with tokens := refilled - 1, lastUpdate := now }, true)
  else
    ({ tb with tokens := refilled, lastUpdate := now }, false)

/-! ### Delivery queue (`subscribers` package)

Durations and instants on the queue side are `Int` (nanoseconds of
`time.Duration` / `time.Time`); `time.Time`'s zero value is `Option.none`.
Per-destination state mirrors the three Go maps `workerErrs`,
`nextAllowed` and `backoff` (total functions with the Go zero value as
default) together with the key set of `workerErrs`, which `resetIfNeeded`
ranges over. -/

/-- The `minDuration(a, b)` helper from the subscribers package. -/
def minDuration (a b : Int) : Int :=
  if a < b then a else b

/-- The `QueueConfig` struct (all durations in the same integer unit). -/
structure QueueConfig where
  QueueSize : Int
  FlushInterval : Int
  CircuitThreshold : Int
  BackoffMin : Int
  BackoffMax : Int
  CircuitReset : Int
deriving DecidableEq, Repr

/-- The default normalization performed by `NewQueueWithConfig` before the
queue is built: every non-positive tuning value is replaced by its
default (1000 events, 1s flush, threshold 5, 100ms min backoff, 5s max
backoff, 10s circuit reset; durations here in milliseconds). -/
def normalizeConfig (cfg : QueueConfig) : QueueConfig :=
  { QueueSize := if cfg.QueueSize ≤ 0 then 1000 else cfg.QueueSize
    FlushInterval := if cfg.FlushInterval ≤ 0 then 1000 else cfg.FlushInterval
    CircuitThreshold := if cfg.CircuitThreshold ≤ 0 then 5 else cfg.CircuitThreshold
    BackoffMin := if cfg.BackoffMin ≤ 0 then 100 else cfg.BackoffMin
    BackoffMax := if cfg.BackoffMax ≤ 0 then 5000 else cfg.BackoffMax
    CircuitReset := if cfg.CircuitReset ≤ 0 then 10000 else cfg.CircuitReset }

/-- The tuning fields stored on `Queue` by `NewQueueWithConfig`
(`cbThreshold`, `backoffMin`, `backoffMax`, `cbReset`). -/
structure Tuning where
  cbThreshold : Int
  backoffMin : Int
  backoffMax : Int
  cbReset : Int
deriving DecidableEq, Repr

/-- The tuning a queue built by `NewQueueWithConfig cfg` carries. -/
def mkTuning (cfg : QueueConfig) : Tuning :=
  let c := normalizeConfig cfg
  { cbThreshold := c.CircuitThreshold
    backoffMin := c.BackoffMin
    backoffMax := c.BackoffMax
    cbReset := c.CircuitReset }

/-- Point update of a string-keyed map (a Go map assignment `m[k] = v`). -/
def upd {α : Type} (m : String → α) (k : String) (v : α) : String → α :=
  fun k' => if k' = k then v else m k'

/-- Key insertion for the tracked key set of a Go map. -/
def insertKey (l : List String) (k : String) : List String :=
  if k ∈ l then l else k :: l

/-- The queue's per-destination health maps: `workerErrs`, `nextAllowed`
(`none` is `time.Time`'s zero value), `backoff`, plus the key set of the
`workerErrs` map (every delivery attempt writes `workerErrs[id]`, so this
is the set `resetIfNeeded` sweeps). -/
structure HealthState where
  workerErrs : String → Nat
  errDom : List String
  nextAllowed : String → Option Int
  backoff : String → Int

/-- Freshly-made empty maps, as in `NewQueueWithConfig`. -/
def initHealth : HealthState :=
  { workerErrs := fun _ => 0
    errDom := []
    nextAllowed := fun _ => none
    backoff := fun _ => 0 }

/-- The effective backoff the failure branch of `Queue.deliver` waits
for: the stored backoff, replaced by `backoffMin` when zero and clamped
to `backoffMax`. -/
def effBackoff (q : Tuning) (h : HealthState) (id : String) : Int :=
  let bo0 := h.backoff id
  let bo1 := if bo0 = 0 then q.backoffMin else bo0
  if bo1 > q.backoffMax then q.backoffMax else bo1

/-- The failure branch of `Queue.deliver` for destination `id` at instant
`now`: bump the error count, gate the next attempt at `now` plus the
effective backoff, and store the doubled backoff capped at
`backoffMax`. -/
def failUpd (q : Tuning) (now : Int) (h : HealthState) (id : String) :
    HealthState :=
  let errCount := h.workerErrs id + 1
  let bo := effBackoff q h id
  { workerErrs := upd h.workerErrs id errCount
    errDom := insertKey h.errDom id
    nextAllowed := upd h.nextAllowed id (some (now + bo))
    backoff := upd h.backoff id (minDuration (bo * 2) q.backoffMax) }

/-- The success branch of `Queue.deliver` for destination `id`: error
count back to zero, backoff reset to `backoffMin`, gate cleared to the
zero time. -/
def succUpd (q : Tuning) (h : HealthState) (id : String) : HealthState :=
  { workerErrs := upd h.workerErrs id 0
    errDom := insertKey h.errDom id
    nextAllowed := upd h.nextAllowed id none
    backoff := upd h.backoff id q.backoffMin }

/-- One registered subscriber as `deliver` sees it: `id` is
`fmt.Sprintf("%T", sub)` — the adapter's dynamic type name, so two
adapters of the same concrete type carry the same `id` — and `ok` is
whether its `Send` returns nil for the event being delivered. -/
structure SubM where
  id : String
  ok : Bool
deriving DecidableEq, Repr

/-- One iteration of the subscriber loop in `Queue.deliver`, at the
instant `now` at which that iteration reads `time.Now()`: skip when the
gate `nextAllowed[id]` is a non-zero time still in the future, otherwise
invoke `Send` and record the outcome.  The returned flag is whether
`Send` was invoked.  (The `errCount >= cbThreshold` check only emits a
diagnostic and `continue`s past the success branch, which is unreachable
on the failure path anyway; diagnostics are elided.) -/
def deliverOne (q : Tuning) (now : Int) (h : HealthState) (s : SubM) :
    HealthState × Bool :=
  let skip : Bool :=
    match h.nextAllowed s.id with
    | some t => decide (now < t)
    | none => false
  if skip then (h, false)
  else if s.ok then (succUpd q h s.id, true)
  else (failUpd q now h s.id, true)

/-- Function `Queue.deliver` for one event: the subscriber loop in registration
order, each iteration paired with the instant at which it runs.  Returns
the updated health maps and the per-subscriber Send-invocation flags. -/
def deliver (q : Tuning) (h : HealthState) :
    List (SubM × Int) → HealthState × List Bool
  | [] => (h, [])
  | (s, now) :: rest =>
      let r := deliverOne q now h s
      let r2 := deliver q r.1 rest
      (r2.1, r.2 :: r2.2)

/-- Function `Queue.resetIfNeeded`: guarded by `cbReset <= 0`, then zeroes the
error count, clears the gate and resets the backoff to `backoffMin` for
every key of the `workerErrs` map. -/
def resetIfNeeded (q : Tuning) (h : HealthState) : HealthState :=
  if q.cbReset ≤ 0 then h
  else
    { workerErrs := fun id => if id ∈ h.errDom then 0 else h.workerErrs id
      errDom := h.errDom
      nextAllowed := fun id => if id ∈ h.errDom then none else h.nextAllowed id
      backoff := fun id => if id ∈ h.errDom then q.backoffMin else h.backoff id }

/-- One wakeup of the consumer loop in `Queue.start`: either an event was
dequeued (and is delivered to the subscribers, whose Send outcomes and
iteration instants are given), or the flush ticker fired (and the reset
sweep runs). -/
inductive ConsumerMsg where
  | event (subs : List (SubM × Int))
  | tick
deriving Repr

/-- The consumer's reaction to one wakeup. -/
def consumerStep (q : Tuning) (msg : ConsumerMsg) (h : HealthState) :
    HealthState × List Bool :=
  match msg with
  | .event subs => deliver q h subs
  | .tick => (resetIfNeeded q h, [])

/-! ### Track: property enrichment, channel send, shutdown -/

/-- A property value in the `map[string]any` bag.  Injected correlation
values are strings (kept as character lists); caller-supplied values are
opaque. -/
inductive Val where
  | vStr (cs : List Char)
  | vInt (n : Int)
deriving DecidableEq, Repr

/-- Go map assignment `m[k] = v` on an association list with unique keys. -/
def setk (k : String) (v : Val) : List (String × Val) → List (String × Val)
  | [] => [(k, v)]
  | (k', v') :: rest => if k' = k then (k, v) :: rest else (k', v') :: setk k v rest

/-- Go map lookup `m[k]` (as an option). -/
def getk (k : String) : List (String × Val) → Option Val
  | [] => none
  | (k', v') :: rest => if k' = k then some v' else getk k rest

/-- Lowercase hex digit for `n < 16`, as produced by `fmt`'s `%x` verb. -/
def hexChar (n : Nat) : Char :=
  if n < 10 then Char.ofNat (48 + n) else Char.ofNat (87 + n)

/-- Fixed-width lowercase-hex rendering: `hexDigits d n` is `n` printed
as exactly `d` hex digits, most significant first — `%032x` of a 16-byte
trace id is `hexDigits 32`, `%016x` of an 8-byte span id is
`hexDigits 16`. -/
def hexDigits : Nat → Nat → List Char
  | 0, _ => []
  | d + 1, n => hexDigits d (n / 16) ++ [hexChar (n % 16)]

/-- The sixteen characters `%x` can emit. -/
def hexAlphabet : List Char := "0123456789abcdef".data

/-- The span found by `trace.SpanFromContext` (a non-recording no-op span
when the context carries none) with its `SpanContext`: `traceID` is the
16-byte array as a number, `spanID` the 8-byte array. -/
structure SpanInfo where
  recording : Bool
  valid : Bool
  traceID : Nat
  spanID : Nat
deriving DecidableEq, Repr

/-- The ambient data `Track` reads from its context argument: the span
and `autolemetry.GetOperationName` (empty when none is stored). -/
structure Ctx where
  span : SpanInfo
  opName : String
deriving DecidableEq, Repr

/-- The enrichment step of `Queue.Track`: copy the caller's properties,
inject `trace_id`/`span_id` when a valid recording span is active, and
`operation.name` when an operation name is tracked. -/
def enrich (ctx : Ctx) (properties : List (String × Val)) :
    List (String × Val) :=
  let props := properties
  let props :=
    if ctx.span.recording ∧ ctx.span.valid then
      setk "span_id" (.vStr (hexDigits 16 ctx.span.spanID))
        (setk "trace_id" (.vStr (hexDigits 32 ctx.span.traceID)) props)
    else props
  if ctx.opName ≠ "" then setk "operation.name" (.vStr ctx.opName.data) props
  else props

/-- An event sitting in the queue (`queuedEvent`). -/
structure QueuedEvent where
  name : String
  properties : List (String × Val)
  operation : String
deriving DecidableEq, Repr

/-- The `events` channel: capacity, buffered events, and whether
`close(q.events)` has run. -/
structure EventChan where
  closed : Bool
  buf : List QueuedEvent
  cap : Nat
deriving DecidableEq, Repr

/-- What a `Track` call does to its caller. -/
inductive TrackOutcome where
  | enqueued
  | dropped
  | panicked
deriving DecidableEq, Repr

/-- Function `Queue.Track`: enrich a copy of the properties, then the
`select`/`default` send.  Per the Go memory model, a send on a closed
channel is always ready in a `select` and raises a run-time panic, so
`default` is not taken once the channel is closed; otherwise the event is
buffered when there is room and dropped (with a diagnostic) when the
buffer is full. -/
def Track (c : EventChan) (ctx : Ctx) (name : String)
    (properties : List (String × Val)) : EventChan × TrackOutcome :=
  let props := enrich ctx properties
  let ev : QueuedEvent := ⟨name, props, ctx.opName⟩
  if c.closed then (c, .panicked)
  else if c.buf.length < c.cap then ({ c with buf := c.buf ++ [ev] }, .enqueued)
  else (c, .dropped)

/-- The queue state `Shutdown` touches: the `closed` flag, the events
channel, and how many times each registered subscriber's `Close` has been
invoked (by registration position). -/
structure QueueLife where
  closed : Bool
  chan : EventChan
  closeCounts : List Nat
deriving DecidableEq, Repr

/-- Function `Queue.Shutdown`: a second call returns nil at once; the first call
sets `closed`, closes the events channel, waits for the consumer, then
calls `Close` on every subscriber once, discarding each close error
(`_closeErrs`, one per subscriber, is never consulted), and returns nil. -/
def Shutdown (_closeErrs : List (Option String)) (q : QueueLife) :
    QueueLife × Option String :=
  if q.closed then (q, none)
  else
    ({ closed := true
       chan := { q.chan with closed := true }
       closeCounts := q.closeCounts.map (· + 1) }, none)

/-! ### Helper lemmas -/

lemma upd_self {α : Type} (m : String → α) (k : String) (v : α) :
    upd m k v k = v := by
  simp [upd]

lemma upd_ne {α : Type} (m : String → α) (k k' : String) (v : α)
    (h : k' ≠ k) : upd m k v k' = m k' := by
  simp [upd, h]

lemma minDuration_eq_min (a b : Int) : minDuration a b = min a b := by
  simp only [minDuration, min_def]
  split_ifs <;> omega

lemma min_double (a m : Int) (hm : 0 ≤ m) :
    min (2 * min a m) m = min (2 * a) m := by
  simp only [min_def]
  split_ifs <;> omega

/-! ### C1, C6: Track after shutdown, shutdown idempotence -/

/-- C1: the claim asserts that Track never panics, in every queue state
including after Shutdown.  The code violates this: `Shutdown` closes the
`events` channel and `Track` still executes the `select` send on it, and
a send on a closed channel is a Go run-time panic.  This theorem
evaluates the embedding at the failing input — a Track call on the
post-Shutdown queue — and also records that before shutdown the claim's
full-buffer and free-buffer behaviors do hold (drop resp. enqueue,
never a panic). -/
theorem track_after_shutdown_panics :
    (Track (Shutdown [] ⟨false, ⟨false, [], 1000⟩, []⟩).1.chan
        ⟨⟨false, false, 0, 0⟩, ""⟩ "order.completed" []).2 = .panicked ∧
    (Track ⟨false, [], 0⟩ ⟨⟨false, false, 0, 0⟩, ""⟩ "order.completed" []).2 =
      .dropped ∧
    (Track ⟨false, [], 1000⟩ ⟨⟨false, false, 0, 0⟩, ""⟩ "order.completed" []).2 =
      .enqueued := by
  refine ⟨rfl, rfl, rfl⟩

/-- C6: Shutdown is idempotent.  On a not-yet-closed queue the first call
returns nil, marks the queue closed, closes the events channel and bumps
every subscriber's Close count exactly once; any further Shutdown is a
no-op that returns nil and closes nothing again, whatever close errors
the adapters would have reported. -/
theorem shutdown_idempotent (errs errs2 errs3 : List (Option String))
    (c : EventChan) (counts : List Nat) :
    (Shutdown errs ⟨false, c, counts⟩).2 = none ∧
    (Shutdown errs ⟨false, c, counts⟩).1 =
      ⟨true, { c with closed := true }, counts.map (· + 1)⟩ ∧
    Shutdown errs2 (Shutdown errs ⟨false, c, counts⟩).1 =
      ((Shutdown errs ⟨false, c, counts⟩).1, none) ∧
    Shutdown errs3 ⟨true, c, counts⟩ = (⟨true, c, counts⟩, none) := by
  refine ⟨rfl, rfl, rfl, rfl⟩

/-! ### C3, C7: circuit breaker -/

/-- C3: in HalfOpen, `RecordFailure` goes through the general failure
path: it increments the failure counter (never reset since the breaker
left Closed) and moves the breaker to Open exactly when that counter
reaches `failureThreshold`; below the threshold the breaker stays
HalfOpen with only the counters changed — there is no immediate-reopen
shortcut special to HalfOpen. -/
theorem recordFailure_halfOpen_accumulates (cb : CircuitBreaker) (now : Nat)
    (hst : cb.state = .StateHalfOpen) :
    (cb.RecordFailure now).failureCount = cb.failureCount + 1 ∧
    ((cb.RecordFailure now).state = .StateOpen ↔
      cb.failureThreshold ≤ cb.failureCount + 1) ∧
    (cb.failureCount + 1 < cb.failureThreshold →
      cb.RecordFailure now =
        { cb with failureCount := cb.failureCount + 1, successCount := 0 }) := by
  unfold CircuitBreaker.RecordFailure CircuitBreaker.setState
  by_cases h : cb.failureThreshold ≤ cb.failureCount + 1 <;>
    simp [h, hst]

theorem recordFailure_halfOpen_accumulates_witness :
    (CircuitBreaker.RecordFailure ⟨.StateHalfOpen, 1, 0, 3, 2, 100, 0⟩ 7).failureCount = 2 ∧
    ((CircuitBreaker.RecordFailure ⟨.StateHalfOpen, 1, 0, 3, 2, 100, 0⟩ 7).state =
        .StateOpen ↔ 3 ≤ 2) ∧
    (2 < 3 →
      CircuitBreaker.RecordFailure ⟨.StateHalfOpen, 1, 0, 3, 2, 100, 0⟩ 7 =
        ⟨.StateHalfOpen, 2, 0, 3, 2, 100, 0⟩) :=
  recordFailure_halfOpen_accumulates ⟨.StateHalfOpen, 1, 0, 3, 2, 100, 0⟩ 7 rfl

/-- The breaker of the §8 scenario after its three consecutive
failures. -/
def cbScenarioOpen (t0 tf1 tf2 tf3 : Nat) : CircuitBreaker :=
  (((NewCircuitBreaker 3 2 100 t0).RecordFailure tf1).RecordFailure
    tf2).RecordFailure tf3

/-- The scenario breaker after the probing Allow at instant `tb`. -/
def cbScenarioHalfOpen (t0 tf1 tf2 tf3 tb : Nat) : CircuitBreaker :=
  ((cbScenarioOpen t0 tf1 tf2 tf3).Allow tb).1

/-- C7: the concrete scenario with failureThreshold 3, successThreshold 2
and timeout 100ms: three failures open the breaker (recording the third
failure's instant), Allow is refused — and the breaker unchanged — while
at most 100ms have passed since then, the first Allow after more than
100ms is granted and moves to HalfOpen, and two successes from there
close the breaker. -/
theorem circuitBreaker_scenario (t0 tf1 tf2 tf3 ta tb ts1 ts2 : Nat)
    (hta : ta - tf3 ≤ 100) (htb : 100 < tb - tf3) :
    ((NewCircuitBreaker 3 2 100 t0).RecordFailure tf1).state =
      CBState.StateClosed ∧
    (((NewCircuitBreaker 3 2 100 t0).RecordFailure tf1).RecordFailure
      tf2).state = CBState.StateClosed ∧
    (cbScenarioOpen t0 tf1 tf2 tf3).state = CBState.StateOpen ∧
    (cbScenarioOpen t0 tf1 tf2 tf3).lastStateChange = tf3 ∧
    (cbScenarioOpen t0 tf1 tf2 tf3).Allow ta =
      (cbScenarioOpen t0 tf1 tf2 tf3, false) ∧
    ((cbScenarioOpen t0 tf1 tf2 tf3).Allow tb).2 = true ∧
    (cbScenarioHalfOpen t0 tf1 tf2 tf3 tb).state = CBState.StateHalfOpen ∧
    ((cbScenarioHalfOpen t0 tf1 tf2 tf3 tb).RecordSuccess ts1).state =
      CBState.StateHalfOpen ∧
    (((cbScenarioHalfOpen t0 tf1 tf2 tf3 tb).RecordSuccess
      ts1).RecordSuccess ts2).state = CBState.StateClosed := by
  have h1 : ¬ (100 < ta - tf3) := by omega
  simp [cbScenarioOpen, cbScenarioHalfOpen, NewCircuitBreaker,
    CircuitBreaker.RecordFailure, CircuitBreaker.RecordSuccess,
    CircuitBreaker.Allow, CircuitBreaker.setState, h1, htb]

theorem circuitBreaker_scenario_witness :
    ((NewCircuitBreaker 3 2 100 0).RecordFailure 1).state =
      CBState.StateClosed ∧
    (((NewCircuitBreaker 3 2 100 0).RecordFailure 1).RecordFailure
      2).state = CBState.StateClosed ∧
    (cbScenarioOpen 0 1 2 3).state = CBState.StateOpen ∧
    (cbScenarioOpen 0 1 2 3).lastStateChange = 3 ∧
    (cbScenarioOpen 0 1 2 3).Allow 50 = (cbScenarioOpen 0 1 2 3, false) ∧
    ((cbScenarioOpen 0 1 2 3).Allow 104).2 = true ∧
    (cbScenarioHalfOpen 0 1 2 3 104).state = CBState.StateHalfOpen ∧
    ((cbScenarioHalfOpen 0 1 2 3 104).RecordSuccess 200).state =
      CBState.StateHalfOpen ∧
    (((cbScenarioHalfOpen 0 1 2 3 104).RecordSuccess 200).RecordSuccess
      201).state = CBState.StateClosed :=
  circuitBreaker_scenario 0 1 2 3 50 104 200 201 (by decide) (by decide)

/-! ### C8: token bucket -/

/-- C8: on every `Allow` with the clock not running backwards, the
invariant `0 ≤ tokens ≤ burst` is preserved; `Allow` first refills by
elapsed × rate clamped to the burst capacity, returns true and consumes
exactly one token iff at least one token is available after the refill,
and otherwise only stores the refilled amount and returns false. -/
theorem tokenBucket_allow_invariant (tb : TokenBucket) (now : ℚ)
    (h0 : 0 ≤ tb.tokens) (h1 : tb.tokens ≤ (tb.burst : ℚ))
    (hr : 0 ≤ tb.rate) (he : tb.lastUpdate ≤ now) :
    0 ≤ (tb.Allow now).1.tokens ∧
    (tb.Allow now).1.tokens ≤ ((tb.Allow now).1.burst : ℚ) ∧
    ((tb.Allow now).2 = true ↔
      1 ≤ min ((tb.burst : ℚ)) (tb.tokens + (now - tb.lastUpdate) * tb.rate)) ∧
    ((tb.Allow now).2 = true →
      (tb.Allow now).1.tokens =
        min ((tb.burst : ℚ)) (tb.tokens + (now - tb.lastUpdate) * tb.rate) - 1) ∧
    ((tb.Allow now).2 = false →
      (tb.Allow now).1.tokens =
        min ((tb.burst : ℚ)) (tb.tokens + (now - tb.lastUpdate) * tb.rate)) ∧
    (tb.Allow now).1.burst = tb.burst ∧ (tb.Allow now).1.rate = tb.rate ∧
    (tb.Allow now).1.lastUpdate = now := by
  have hnn : (0 : ℚ) ≤ min ((tb.burst : ℚ)) (tb.tokens + (now - tb.lastUpdate) * tb.rate) :=
    le_min (by positivity) (by nlinarith)
  have hub : min ((tb.burst : ℚ)) (tb.tokens + (now - tb.lastUpdate) * tb.rate) ≤
      (tb.burst : ℚ) := min_le_left _ _
  unfold TokenBucket.Allow
  by_cases hc :
      1 ≤ min ((tb.burst : ℚ)) (tb.tokens + (now - tb.lastUpdate) * tb.rate) <;>
    simp [hc, ge_iff_le] <;>
    (try constructor) <;>
    first
      | rfl
      | linarith [mul_nonneg (sub_nonneg.mpr he) hr]

theorem tokenBucket_allow_invariant_witness :
    0 ≤ (TokenBucket.Allow ⟨5, 5, 5, 0⟩ 0).1.tokens ∧
    (TokenBucket.Allow ⟨5, 5, 5, 0⟩ 0).1.tokens ≤
      (((TokenBucket.Allow ⟨5, 5, 5, 0⟩ 0).1.burst : ℕ) : ℚ) ∧
    ((TokenBucket.Allow ⟨5, 5, 5, 0⟩ 0).2 = true ↔
      1 ≤ min (((5 : ℕ) : ℚ)) (5 + (0 - 0) * 5)) ∧
    ((TokenBucket.Allow ⟨5, 5, 5, 0⟩ 0).2 = true →
      (TokenBucket.Allow ⟨5, 5, 5, 0⟩ 0).1.tokens =
        min (((5 : ℕ) : ℚ)) (5 + (0 - 0) * 5) - 1) ∧
    ((TokenBucket.Allow ⟨5, 5, 5, 0⟩ 0).2 = false →
      (TokenBucket.Allow ⟨5, 5, 5, 0⟩ 0).1.tokens =
        min (((5 : ℕ) : ℚ)) (5 + (0 - 0) * 5)) ∧
    (TokenBucket.Allow ⟨5, 5, 5, 0⟩ 0).1.burst = 5 ∧
    (TokenBucket.Allow ⟨5, 5, 5, 0⟩ 0).1.rate = 5 ∧
    (TokenBucket.Allow ⟨5, 5, 5, 0⟩ 0).1.lastUpdate = 0 :=
  tokenBucket_allow_invariant ⟨5, 5, 5, 0⟩ 0 (by simp) (by simp) (by simp)
    (by simp)

/-! ### C2: exponential backoff growth -/

/-- Iterated record of `k` consecutive Send failures for destination `id` with no
intervening success or reset sweep, the `i`-th failure happening at
instant `clock i`. -/
def iterFail (q : Tuning) (id : String) (clock : Nat → Int) :
    Nat → HealthState → HealthState
  | 0, h => h
  | k + 1, h => failUpd q (clock k) (iterFail q id clock k h) id

lemma iterFail_succ (q : Tuning) (id : String) (clock : Nat → Int)
    (k : Nat) (h : HealthState) :
    iterFail q id clock (k + 1) h = failUpd q (clock k) (iterFail q id clock k h) id :=
  rfl

lemma iterFail_zero (q : Tuning) (id : String) (clock : Nat → Int)
    (h : HealthState) : iterFail q id clock 0 h = h :=
  rfl

lemma failUpd_workerErrs_self (q : Tuning) (now : Int) (h : HealthState)
    (id : String) :
    (failUpd q now h id).workerErrs id = h.workerErrs id + 1 := by
  simp [failUpd, upd_self]

lemma failUpd_nextAllowed_self (q : Tuning) (now : Int) (h : HealthState)
    (id : String) :
    (failUpd q now h id).nextAllowed id = some (now + effBackoff q h id) := by
  simp [failUpd, upd_self]

lemma failUpd_backoff_self (q : Tuning) (now : Int) (h : HealthState)
    (id : String) :
    (failUpd q now h id).backoff id =
      min (effBackoff q h id * 2) q.backoffMax := by
  simp [failUpd, upd_self, minDuration_eq_min]

lemma effBackoff_of_zero (q : Tuning) (h : HealthState) (id : String)
    (hb : h.backoff id = 0) (hmm : q.backoffMin ≤ q.backoffMax) :
    effBackoff q h id = q.backoffMin := by
  simp only [effBackoff, hb]
  split_ifs <;> omega

lemma effBackoff_of_inrange (q : Tuning) (h : HealthState) (id : String)
    (hb0 : h.backoff id ≠ 0) (hble : h.backoff id ≤ q.backoffMax) :
    effBackoff q h id = h.backoff id := by
  simp only [effBackoff]
  split_ifs <;> omega

/-- C2: starting from a health record whose stored backoff is zero (a
fresh destination) or `backoffMin` (after a success or a reset sweep),
after `k ≥ 1` consecutive failures the gate is the `k`-th failure's
instant plus `min(backoffMin · 2^(k-1), backoffMax)` — the wait before
the next attempt — the stored backoff is
`min(backoffMin · 2^k, backoffMax)` (each failure doubles it, capped at
`backoffMax`, starting from `backoffMin`), and the failure counter has
grown by `k`. -/
theorem backoff_growth (q : Tuning) (hmin : 0 < q.backoffMin)
    (hmm : q.backoffMin ≤ q.backoffMax) (id : String) (clock : Nat → Int)
    (h0 : HealthState) (hb : h0.backoff id = 0 ∨ h0.backoff id = q.backoffMin)
    (k : Nat) (hk : 1 ≤ k) :
    (iterFail q id clock k h0).nextAllowed id =
      some (clock (k - 1) + min (q.backoffMin * 2 ^ (k - 1)) q.backoffMax) ∧
    (iterFail q id clock k h0).backoff id =
      min (q.backoffMin * 2 ^ k) q.backoffMax ∧
    (iterFail q id clock k h0).workerErrs id = h0.workerErrs id + k := by
  induction k with
  | zero => omega
  | succ j ih =>
    rcases Nat.eq_zero_or_pos j with hj | hj
    · -- first failure: the effective backoff is backoffMin in both cases of hb
      subst hj
      have heff : effBackoff q h0 id = q.backoffMin := by
        rcases hb with hz | hm
        · exact effBackoff_of_zero q h0 id hz hmm
        · rw [effBackoff_of_inrange q h0 id (by omega) (by omega), hm]
      have hm1 : min (q.backoffMin * 2 ^ (0 : Nat)) q.backoffMax = q.backoffMin := by
        rw [pow_zero, mul_one, min_eq_left hmm]
      have hm2 : q.backoffMin * 2 = q.backoffMin * 2 ^ (1 : Nat) := by ring
      refine ⟨?_, ?_, ?_⟩
      · rw [iterFail_succ, failUpd_nextAllowed_self, iterFail_zero, heff]
        simp only [Nat.add_sub_cancel, hm1]
      · rw [iterFail_succ, failUpd_backoff_self, iterFail_zero, heff, hm2]
      · rw [iterFail_succ, failUpd_workerErrs_self, iterFail_zero]
    · obtain ⟨ihn, ihb, ihe⟩ := ih hj
      have hBpos : 0 < min (q.backoffMin * 2 ^ j) q.backoffMax :=
        lt_min (by positivity) (by omega)
      have heff : effBackoff q (iterFail q id clock j h0) id =
          min (q.backoffMin * 2 ^ j) q.backoffMax := by
        rw [effBackoff_of_inrange q _ id (by rw [ihb]; omega)
          (by rw [ihb]; exact min_le_right _ _), ihb]
      refine ⟨?_, ?_, ?_⟩
      · rw [iterFail_succ, failUpd_nextAllowed_self, heff]
        simp
      · rw [iterFail_succ, failUpd_backoff_self, heff]
        have h2 : min (q.backoffMin * 2 ^ j) q.backoffMax * 2 =
            2 * min (q.backoffMin * 2 ^ j) q.backoffMax := by ring
        rw [h2, min_double _ _ (by omega)]
        have h3 : 2 * (q.backoffMin * 2 ^ j) = q.backoffMin * 2 ^ (j + 1) := by
          ring
        rw [h3]
      · rw [iterFail_succ, failUpd_workerErrs_self, ihe]
        omega

theorem backoff_growth_witness :
    (iterFail ⟨5, 100, 5000, 10000⟩ "A" (fun i => (i : Int)) 3 initHealth).nextAllowed "A" =
      some ((2 : Int) + min ((100 : Int) * 2 ^ (2 : Nat)) 5000) ∧
    (iterFail ⟨5, 100, 5000, 10000⟩ "A" (fun i => (i : Int)) 3 initHealth).backoff "A" =
      min ((100 : Int) * 2 ^ (3 : Nat)) 5000 ∧
    (iterFail ⟨5, 100, 5000, 10000⟩ "A" (fun i => (i : Int)) 3 initHealth).workerErrs "A" =
      0 + 3 :=
  backoff_growth ⟨5, 100, 5000, 10000⟩ (by decide) (by decide) "A"
    (fun i => (i : Int)) initHealth (Or.inl rfl) 3 (by decide)

/-! ### C5: trace-context enrichment -/

lemma getk_setk_self (k : String) (v : Val) (l : List (String × Val)) :
    getk k (setk k v l) = some v := by
  induction l with
  | nil => simp [setk, getk]
  | cons p rest ih =>
    obtain ⟨k', v'⟩ := p
    by_cases h : k' = k <;> simp [setk, getk, h, ih]

lemma getk_setk_ne (k k' : String) (hne : k' ≠ k) (v : Val)
    (l : List (String × Val)) : getk k (setk k' v l) = getk k l := by
  induction l with
  | nil => simp [setk, getk, hne]
  | cons p rest ih =>
    obtain ⟨a, b⟩ := p
    by_cases ha : a = k'
    · subst ha
      simp [setk, getk, hne]
    · by_cases hak : a = k <;> simp [setk, getk, ha, hak, Ne.symm hne, ih]

lemma hexDigits_length (d : Nat) : ∀ n : Nat, (hexDigits d n).length = d := by
  induction d with
  | zero => intro n; simp [hexDigits]
  | succ j ih => intro n; simp [hexDigits, ih]

lemma hexChar_mem_of_lt (m : Nat) (hm : m < 16) : hexChar m ∈ hexAlphabet := by
  have hall : ∀ m', m' < 16 → hexChar m' ∈ hexAlphabet := by decide
  exact hall m hm

lemma hexDigits_mem (d : Nat) :
    ∀ n : Nat, ∀ c ∈ hexDigits d n, c ∈ hexAlphabet := by
  induction d with
  | zero => intro n c hc; simp [hexDigits] at hc
  | succ j ih =>
    intro n c hc
    simp only [hexDigits, List.mem_append, List.mem_singleton] at hc
    rcases hc with hc | hc
    · exact ih _ c hc
    · subst hc
      exact hexChar_mem_of_lt _ (Nat.mod_lt _ (by omega))

/-- C5: when the ambient context carries a valid recording span, the
enriched property bag maps `trace_id` to the span context's trace id
rendered as exactly 32 characters drawn from the lowercase hex alphabet
and `span_id` to the span id rendered as exactly 16 such characters;
when no recording span is active, Track leaves both keys exactly as they
were in the caller's bag (in particular it adds neither). -/
theorem track_enrichment (ctx : Ctx) (props : List (String × Val)) :
    (ctx.span.recording = true → ctx.span.valid = true →
      getk "trace_id" (enrich ctx props) =
        some (.vStr (hexDigits 32 ctx.span.traceID)) ∧
      (hexDigits 32 ctx.span.traceID).length = 32 ∧
      (∀ c ∈ hexDigits 32 ctx.span.traceID, c ∈ hexAlphabet) ∧
      getk "span_id" (enrich ctx props) =
        some (.vStr (hexDigits 16 ctx.span.spanID)) ∧
      (hexDigits 16 ctx.span.spanID).length = 16 ∧
      (∀ c ∈ hexDigits 16 ctx.span.spanID, c ∈ hexAlphabet)) ∧
    (ctx.span.recording = false →
      getk "trace_id" (enrich ctx props) = getk "trace_id" props ∧
      getk "span_id" (enrich ctx props) = getk "span_id" props) := by
  constructor
  · intro hrec hval
    have henr : enrich ctx props =
        (if ctx.opName ≠ "" then
          setk "operation.name" (.vStr ctx.opName.data) else id)
          (setk "span_id" (.vStr (hexDigits 16 ctx.span.spanID))
            (setk "trace_id" (.vStr (hexDigits 32 ctx.span.traceID)) props)) := by
      simp [enrich, hrec, hval]
      split_ifs <;> rfl
    refine ⟨?_, hexDigits_length 32 _, hexDigits_mem 32 _, ?_,
      hexDigits_length 16 _, hexDigits_mem 16 _⟩
    · rw [henr]
      split_ifs with hop
      · rw [getk_setk_ne _ _ (by decide) _ _,
          getk_setk_ne _ _ (by decide) _ _, getk_setk_self]
      · simp only [id]
        rw [getk_setk_ne _ _ (by decide) _ _, getk_setk_self]
    · rw [henr]
      split_ifs with hop
      · rw [getk_setk_ne _ _ (by decide) _ _, getk_setk_self]
      · simp only [id]
        rw [getk_setk_self]
  · intro hrec
    have henr : enrich ctx props =
        (if ctx.opName ≠ "" then
          setk "operation.name" (.vStr ctx.opName.data) else id) props := by
      simp [enrich, hrec]
      split_ifs <;> rfl
    rw [henr]
    split_ifs with hop
    · exact ⟨getk_setk_ne _ _ (by decide) _ _, getk_setk_ne _ _ (by decide) _ _⟩
    · simp

theorem track_enrichment_witness :
    getk "trace_id" (enrich ⟨⟨true, true, 255, 10⟩, "checkout"⟩ []) =
      some (.vStr (hexDigits 32 255)) ∧
    (hexDigits 32 255).length = 32 ∧
    getk "span_id" (enrich ⟨⟨true, true, 255, 10⟩, "checkout"⟩ []) =
      some (.vStr (hexDigits 16 10)) ∧
    getk "trace_id" (enrich ⟨⟨false, false, 0, 0⟩, ""⟩ [("amount", .vInt 42)]) =
      getk "trace_id" [("amount", .vInt 42)] :=
  ⟨((track_enrichment ⟨⟨true, true, 255, 10⟩, "checkout"⟩ []).1 rfl rfl).1,
   ((track_enrichment ⟨⟨true, true, 255, 10⟩, "checkout"⟩ []).1 rfl rfl).2.1,
   ((track_enrichment ⟨⟨true, true, 255, 10⟩, "checkout"⟩ []).1 rfl rfl).2.2.2.1,
   ((track_enrichment ⟨⟨false, false, 0, 0⟩, ""⟩ [("amount", .vInt 42)]).2 rfl).1⟩

/-! ### C4, C9: failure isolation and type-keyed health records -/

lemma deliver_nil (q : Tuning) (h : HealthState) : deliver q h [] = (h, []) :=
  rfl

lemma deliver_cons (q : Tuning) (h : HealthState) (s : SubM) (now : Int)
    (rest : List (SubM × Int)) :
    deliver q h ((s, now) :: rest) =
      ((deliver q (deliverOne q now h s).1 rest).1,
        (deliverOne q now h s).2 :: (deliver q (deliverOne q now h s).1 rest).2) :=
  rfl

lemma deliverOne_attempt (q : Tuning) (now : Int) (h : HealthState) (s : SubM)
    (hna : h.nextAllowed s.id = none) :
    deliverOne q now h s =
      if s.ok then (succUpd q h s.id, true) else (failUpd q now h s.id, true) := by
  simp [deliverOne, hna]

lemma deliverOne_skip (q : Tuning) (now : Int) (h : HealthState) (s : SubM)
    (t : Int) (hna : h.nextAllowed s.id = some t) (hf : now < t) :
    deliverOne q now h s = (h, false) := by
  simp [deliverOne, hna, hf]

lemma failUpd_nextAllowed_ne (q : Tuning) (now : Int) (h : HealthState)
    (id id' : String) (hne : id' ≠ id) :
    (failUpd q now h id).nextAllowed id' = h.nextAllowed id' := by
  simp [failUpd, upd_ne _ _ _ _ hne]

lemma succUpd_nextAllowed_ne (q : Tuning) (h : HealthState)
    (id id' : String) (hne : id' ≠ id) :
    (succUpd q h id).nextAllowed id' = h.nextAllowed id' := by
  simp [succUpd, upd_ne _ _ _ _ hne]

lemma deliverOne_fst_nextAllowed_ne (q : Tuning) (now : Int) (h : HealthState)
    (s : SubM) (id' : String) (hne : id' ≠ s.id) :
    (deliverOne q now h s).1.nextAllowed id' = h.nextAllowed id' := by
  unfold deliverOne
  cases hna : h.nextAllowed s.id with
  | none =>
    cases hok : s.ok <;>
      simp [failUpd_nextAllowed_ne _ _ _ _ _ hne,
        succUpd_nextAllowed_ne _ _ _ _ hne]
  | some t =>
    by_cases hf : now < t <;> cases hok : s.ok <;>
      simp [hf, failUpd_nextAllowed_ne _ _ _ _ _ hne,
        succUpd_nextAllowed_ne _ _ _ _ hne]

/-- One delivery round for a failing destination `aid` followed by a
succeeding destination `bid`: whatever `aid` does, an un-gated `bid` is
sent to and stays un-gated. -/
lemma deliver_pair (q : Tuning) (aid bid : String) (hne : aid ≠ bid)
    (ta tb2 : Int) (h : HealthState) (hb : h.nextAllowed bid = none) :
    (deliver q h [(⟨aid, false⟩, ta), (⟨bid, true⟩, tb2)]).1.nextAllowed bid =
      none ∧
    (deliver q h [(⟨aid, false⟩, ta), (⟨bid, true⟩, tb2)]).2.get? 1 =
      some true := by
  have hA : (deliverOne q ta h ⟨aid, false⟩).1.nextAllowed bid = none := by
    rw [deliverOne_fst_nextAllowed_ne q ta h ⟨aid, false⟩ bid (Ne.symm hne)]
    exact hb
  have hB : deliverOne q tb2 (deliverOne q ta h ⟨aid, false⟩).1 ⟨bid, true⟩ =
      (succUpd q (deliverOne q ta h ⟨aid, false⟩).1 bid, true) := by
    rw [deliverOne_attempt _ _ _ _ hA]
    simp
  constructor
  · rw [deliver_cons, deliver_cons, deliver_nil]
    simp [hB, succUpd, upd_self]
  · rw [deliver_cons, deliver_cons, deliver_nil]
    simp [hB]

/-- Repeated delivery rounds for a fixed subscriber list: each round
delivers one tracked event at its own per-iteration instants. -/
def deliverSeq (q : Tuning) (subs : List SubM) :
    List (List Int) → HealthState → HealthState × List (List Bool)
  | [], h => (h, [])
  | clk :: rest, h =>
      let r := deliver q h (subs.zip clk)
      let r2 := deliverSeq q subs rest r.1
      (r2.1, r.2 :: r2.2)

lemma deliverSeq_cons (q : Tuning) (subs : List SubM) (clk : List Int)
    (rest : List (List Int)) (h : HealthState) :
    deliverSeq q subs (clk :: rest) h =
      ((deliverSeq q subs rest (deliver q h (subs.zip clk)).1).1,
        (deliver q h (subs.zip clk)).2 ::
          (deliverSeq q subs rest (deliver q h (subs.zip clk)).1).2) :=
  rfl

/-- C4: with destination `aid` always failing and destination `bid`
always succeeding, every delivered event is still sent to `bid` — in
every round the second subscriber's Send-invoked flag is true — and
`bid`'s health record never acquires a gate; meanwhile an attempt to
`aid` is skipped (Send not invoked) whenever `aid`'s `nextAllowed` is in
that iteration's future. -/
theorem destination_isolation (q : Tuning) (aid bid : String) (hne : aid ≠ bid)
    (clks : List (List Int)) (hclk : ∀ c ∈ clks, c.length = 2)
    (h0 : HealthState) (hb : h0.nextAllowed bid = none) :
    (∀ fl ∈ (deliverSeq q [⟨aid, false⟩, ⟨bid, true⟩] clks h0).2,
      fl.get? 1 = some true) ∧
    (deliverSeq q [⟨aid, false⟩, ⟨bid, true⟩] clks h0).1.nextAllowed bid =
      none ∧
    (∀ (t ta tb2 : Int) (h : HealthState), h.nextAllowed aid = some t →
      ta < t →
      (deliver q h [(⟨aid, false⟩, ta), (⟨bid, true⟩, tb2)]).2.get? 0 =
        some false) := by
  have hmain : ∀ (cl : List (List Int)), (∀ c ∈ cl, c.length = 2) →
      ∀ h : HealthState, h.nextAllowed bid = none →
      (∀ fl ∈ (deliverSeq q [⟨aid, false⟩, ⟨bid, true⟩] cl h).2,
        fl.get? 1 = some true) ∧
      (deliverSeq q [⟨aid, false⟩, ⟨bid, true⟩] cl h).1.nextAllowed bid =
        none := by
    intro cl
    induction cl with
    | nil =>
      intro _ h hbn
      exact ⟨by simp [deliverSeq], by simpa [deliverSeq] using hbn⟩
    | cons c rest ih =>
      intro hlen h hbn
      obtain ⟨ta, tb2, rfl⟩ := List.length_eq_two.mp (hlen c (by simp))
      have hp := deliver_pair q aid bid hne ta tb2 h hbn
      have ihr := ih (fun c' hc' => hlen c' (by simp [hc'])) _ hp.1
      refine ⟨?_, ?_⟩
      · intro fl hfl
        rw [deliverSeq_cons] at hfl
        rcases List.mem_cons.mp hfl with hfl | hfl
        · subst hfl
          exact hp.2
        · exact ihr.1 fl hfl
      · rw [deliverSeq_cons]
        exact ihr.2
  refine ⟨(hmain clks hclk h0 hb).1, (hmain clks hclk h0 hb).2, ?_⟩
  intro t ta tb2 h hna hf
  rw [deliver_cons, deliverOne_skip q ta h ⟨aid, false⟩ t hna hf]
  rfl

theorem destination_isolation_witness :
    (deliverSeq ⟨5, 100, 5000, 10000⟩ [⟨"A", false⟩, ⟨"B", true⟩]
        [[0, 0], [5, 5]] initHealth).1.nextAllowed "B" = none ∧
    (deliver ⟨5, 100, 5000, 10000⟩
        ⟨fun _ => 0, [], fun _ => some 10, fun _ => 0⟩
        [(⟨"A", false⟩, 0), (⟨"B", true⟩, 5)]).2.get? 0 = some false :=
  ⟨(destination_isolation ⟨5, 100, 5000, 10000⟩ "A" "B" (by decide)
      [[0, 0], [5, 5]] (by decide) initHealth rfl).2.1,
   (destination_isolation ⟨5, 100, 5000, 10000⟩ "A" "B" (by decide)
      [[0, 0], [5, 5]] (by decide) initHealth rfl).2.2 10 0 5
      ⟨fun _ => 0, [], fun _ => some 10, fun _ => 0⟩ rfl (by decide)⟩

/-- C9: health records are keyed by `fmt.Sprintf("%T", sub)` — the
adapter's dynamic type name — so two adapters of the same concrete type
share one record: in a single delivery round where the first adapter
fails, the shared gate is set to that failure's instant plus
`backoffMin`, and the second adapter of the same type, reached within
that window, is skipped (its Send is never invoked), whatever its Send
would have returned. -/
theorem shared_health_record (q : Tuning) (t : String) (now1 now2 : Int)
    (ok2 : Bool) (hmin : 0 < q.backoffMin) (hmm : q.backoffMin ≤ q.backoffMax)
    (hwin : now2 < now1 + q.backoffMin) :
    (deliver q initHealth [(⟨t, false⟩, now1), (⟨t, ok2⟩, now2)]).2 =
      [true, false] ∧
    (deliver q initHealth [(⟨t, false⟩, now1), (⟨t, ok2⟩, now2)]).1.nextAllowed
      t = some (now1 + q.backoffMin) ∧
    (deliver q initHealth [(⟨t, false⟩, now1), (⟨t, ok2⟩, now2)]).1.workerErrs
      t = 1 := by
  have heff : effBackoff q initHealth t = q.backoffMin :=
    effBackoff_of_zero q initHealth t rfl hmm
  have h1 : deliverOne q now1 initHealth ⟨t, false⟩ =
      (failUpd q now1 initHealth t, true) := by
    rw [deliverOne_attempt q now1 initHealth ⟨t, false⟩ rfl]
    simp
  have hna : (failUpd q now1 initHealth t).nextAllowed t =
      some (now1 + q.backoffMin) := by
    rw [failUpd_nextAllowed_self, heff]
  have h2 : deliverOne q now2 (failUpd q now1 initHealth t) ⟨t, ok2⟩ =
      (failUpd q now1 initHealth t, false) :=
    deliverOne_skip q now2 _ ⟨t, ok2⟩ _ hna hwin
  refine ⟨?_, ?_, ?_⟩
  · rw [deliver_cons, deliver_cons, deliver_nil]
    simp [h1, h2]
  · rw [deliver_cons, deliver_cons, deliver_nil]
    simp [h1, h2, hna]
  · rw [deliver_cons, deliver_cons, deliver_nil]
    simp [h1, h2, failUpd_workerErrs_self]
    rfl

theorem shared_health_record_witness :
    (deliver ⟨5, 100, 5000, 10000⟩ initHealth
        [(⟨"Webhook", false⟩, 0), (⟨"Webhook", true⟩, 50)]).2 = [true, false] ∧
    (deliver ⟨5, 100, 5000, 10000⟩ initHealth
        [(⟨"Webhook", false⟩, 0), (⟨"Webhook", true⟩, 50)]).1.nextAllowed
      "Webhook" = some ((0 : Int) + 100) ∧
    (deliver ⟨5, 100, 5000, 10000⟩ initHealth
        [(⟨"Webhook", false⟩, 0), (⟨"Webhook", true⟩, 50)]).1.workerErrs
      "Webhook" = 1 :=
  shared_health_record ⟨5, 100, 5000, 10000⟩ "Webhook" 0 50 true (by decide)
    (by decide) (by decide)

/-! ### C10: the CircuitReset parameter is observably irrelevant -/

lemma deliverOne_cbReset (q : Tuning) (r : Int) (now : Int) (h : HealthState)
    (s : SubM) :
    deliverOne { q with cbReset := r } now h s = deliverOne q now h s :=
  rfl

lemma deliver_cbReset (q : Tuning) (r : Int) (l : List (SubM × Int))
    (h : HealthState) :
    deliver { q with cbReset := r } h l = deliver q h l := by
  induction l generalizing h with
  | nil => rfl
  | cons p rest ih =>
    obtain ⟨s, now⟩ := p
    rw [deliver_cons, deliver_cons, deliverOne_cbReset, ih]

lemma resetIfNeeded_cbReset_pos (q : Tuning) (r1 r2 : Int) (hr1 : 0 < r1)
    (hr2 : 0 < r2) (h : HealthState) :
    resetIfNeeded { q with cbReset := r1 } h =
      resetIfNeeded { q with cbReset := r2 } h := by
  have e1 : ({ q with cbReset := r1 } : Tuning).cbReset = r1 := rfl
  have e2 : ({ q with cbReset := r2 } : Tuning).cbReset = r2 := rfl
  simp only [resetIfNeeded, e1, e2]
  split_ifs <;> first | rfl | (exfalso; omega)

/-- C10: the CircuitReset construction parameter has no observable
effect.  Two queues built from the same configuration except for two
different positive CircuitReset values react identically to every
consumer wakeup — event delivery (which never reads `cbReset`) and the
reset sweep that runs on every flush tick (whose only use of `cbReset`
is the `cbReset <= 0` guard, which both positive values pass) — and
after `NewQueueWithConfig`'s default normalization the stored `cbReset`
is positive for every input configuration, so the guard can never
fire. -/
theorem circuitReset_irrelevant (cfg : QueueConfig) (r1 r2 : Int)
    (hr1 : 0 < r1) (hr2 : 0 < r2) (msg : ConsumerMsg) (h : HealthState) :
    consumerStep (mkTuning { cfg with CircuitReset := r1 }) msg h =
      consumerStep (mkTuning { cfg with CircuitReset := r2 }) msg h ∧
    0 < (mkTuning cfg).cbReset := by
  have hm1 : mkTuning { cfg with CircuitReset := r1 } =
      { mkTuning cfg with cbReset := r1 } := by
    have hneg : ¬ (r1 ≤ 0) := by omega
    simp [mkTuning, normalizeConfig, hneg]
  have hm2 : mkTuning { cfg with CircuitReset := r2 } =
      { mkTuning cfg with cbReset := r2 } := by
    have hneg : ¬ (r2 ≤ 0) := by omega
    simp [mkTuning, normalizeConfig, hneg]
  constructor
  · cases msg with
    | event subs =>
      rw [hm1, hm2]
      simp only [consumerStep]
      simp only [deliver_cbReset]
    | tick =>
      rw [hm1, hm2]
      simp only [consumerStep]
      rw [resetIfNeeded_cbReset_pos _ _ _ hr1 hr2]
  · simp only [mkTuning, normalizeConfig]
    split_ifs <;> omega

theorem circuitReset_irrelevant_witness :
    consumerStep (mkTuning ⟨0, 0, 0, 0, 0, 1⟩) ConsumerMsg.tick initHealth =
      consumerStep (mkTuning ⟨0, 0, 0, 0, 0, 2⟩) ConsumerMsg.tick initHealth ∧
    0 < (mkTuning ⟨0, 0, 0, 0, 0, 0⟩).cbReset :=
  circuitReset_irrelevant ⟨0, 0, 0, 0, 0, 0⟩ 1 2 (by decide) (by decide)
    ConsumerMsg.tick initHealth

end Autolemetry








